import Mathlib

/-!
Shallow embedding of the react-native-filament JSI bridge core
(`src/package/cpp/jsi/RNFHybridObject.h`) and of the swap-chain cleanup
logic of `src/package/src/react/FilamentView.tsx`, together with proofs
about the registry, the generated host functions, the lazy
member-declaration lifecycle, the per-runtime function cache, and the
view cleanup.

Scripting values (`jsi::Value`) are modelled by an inductive `JSIValue`;
numbers are modelled as `Int` (no arithmetic is performed on them by the
bridge, only tagging/untagging). Native C++ values are modelled by
`CppValue`, native method pointers by `NativeMethod`, and the maps
(`std::unordered_map`) by association lists with insert-or-assign
(`mapAssign`) and membership (`mapContains`) mirroring `operator[]=` and
`count(..) > 0`.
-/

namespace Margelo

/-- Model of a `jsi::Value`: the scripting runtime's dynamically typed value. -/
inductive JSIValue where
  | undefined
  | null
  | bool (b : Bool)
  | number (n : Int)
  | string (s : String)
  deriving DecidableEq, Repr

/-- Runtime type tag of a `JSIValue`, used in conversion error reports. -/
inductive JSIKind where
  | undefinedK
  | nullK
  | boolK
  | numberK
  | stringK
  deriving DecidableEq, Repr

/-- The runtime type tag of a scripting value. -/
def JSIValue.kind : JSIValue → JSIKind
  | .undefined => .undefinedK
  | .null => .nullK
  | .bool _ => .boolK
  | .number _ => .numberK
  | .string _ => .stringK

/-- Model of the native C++ argument/return types the converters support,
plus the designated passthrough type `jsi::Value` itself. -/
inductive CppType where
  | tInt
  | tBool
  | tString
  | tJsiValue
  deriving DecidableEq, Repr

/-- Model of a native C++ value produced by `JSIConverter<T>::fromJSI`. -/
inductive CppValue where
  | vInt (n : Int)
  | vBool (b : Bool)
  | vString (s : String)
  | vJsi (v : JSIValue)
  deriving DecidableEq, Repr

/-- `TypeConversionError{expected, actual}`: raised when a scripting value's
runtime type does not match the native handler's declared type. -/
structure TypeConversionError where
  expected : CppType
  actual : JSIKind
  deriving DecidableEq, Repr

/-- Decidable equality of fallible results, used to evaluate concrete calls. -/
instance exceptDecEq {ε α : Type} [DecidableEq ε] [DecidableEq α] : DecidableEq (Except ε α)
  | .ok x, .ok y =>
    match decEq x y with
    | isTrue h => isTrue (by rw [h])
    | isFalse h => isFalse (by intro hh; cases hh; exact h rfl)
  | .ok _, .error _ => isFalse (by intro hh; cases hh)
  | .error _, .ok _ => isFalse (by intro hh; cases hh)
  | .error e, .error e' =>
    match decEq e e' with
    | isTrue h => isTrue (by rw [h])
    | isFalse h => isFalse (by intro hh; cases hh; exact h rfl)

/-- Modelled from the spec: the per-type `JSIConverter<T>::fromJSI`
implementations live in `RNFJSIConverter.h`, which is not among the sources;
spec section 4.1: `fromScript` fails with `TypeConversionError{expected, actual}`
when the supplied scripting value's runtime type does not match `T`, and the
designated passthrough type receives the raw scripting value untouched. -/
def fromJSI (t : CppType) (v : JSIValue) : Except TypeConversionError CppValue :=
  match t, v with
  | .tInt, .number n => .ok (.vInt n)
  | .tBool, .bool b => .ok (.vBool b)
  | .tString, .string s => .ok (.vString s)
  | .tJsiValue, v => .ok (.vJsi v)
  | t, v => .error ⟨t, v.kind⟩

/-- Modelled from the spec: the per-type `JSIConverter<T>::toJSI`
implementations live in `RNFJSIConverter.h`, which is not among the sources;
spec section 4.1: `toScript` translates one native value into the scripting
runtime's value representation, and the passthrough type returns the raw
scripting value untouched. -/
def toJSI : CppValue → JSIValue
  | .vInt n => .number n
  | .vBool b => .bool b
  | .vString s => .string s
  | .vJsi v => v

/-- Return type of a native method: `void`, or a value type converted back. -/
inductive RetType where
  | rVoid
  | rTyped (t : CppType)
  deriving DecidableEq, Repr

/-- Model of a native member-function pointer `ReturnType (Derived::*)(Args...)`.
`typed` carries the declared parameter types, the return type and the body
(a pure function on converted values; a `rVoid` method's returned value is
discarded). `rawJsi` is a method whose C++ return type is `jsi::Value`: per
`createHybridMethod` it receives `(runtime, thisVal, args, count)` raw. -/
inductive NativeMethod where
  | typed (argTypes : List CppType) (ret : RetType) (impl : List CppValue → CppValue)
  | rawJsi (impl : Nat → JSIValue → (Nat → JSIValue) → Nat → JSIValue)

/-- `sizeof...(Args)` for the registered method: the number of declared C++
parameters. A raw `jsi::Value`-returning method declares the four parameters
`(jsi::Runtime&, const jsi::Value&, const jsi::Value*, size_t)`. -/
def NativeMethod.numParams : NativeMethod → Nat
  | .typed argTypes _ _ => argTypes.length
  | .rawJsi _ => 4

/-- Model of `jsi::HostFunctionType`: runtime identity, this-value, argument
array (modelled as a total function, since the C++ callable indexes the
caller's array without any bounds information), argument count; throwing a
conversion error is modelled with `Except`. -/
def HostFunction : Type :=
  Nat → JSIValue → (Nat → JSIValue) → Nat → Except TypeConversionError JSIValue

/-- `callMethod`'s pack expansion
`JSIConverter<std::decay_t<Args>>::fromJSI(runtime, args[Is])...`:
convert the argument at each declared position, in declaration order;
the first failing conversion propagates. -/
def convertArgs : List CppType → (Nat → JSIValue) → Except TypeConversionError (List CppValue)
  | [], _ => .ok []
  | t :: ts, args =>
    match fromJSI t (args 0) with
    | .error e => .error e
    | .ok v =>
      match convertArgs ts (fun i => args (i + 1)) with
      | .error e => .error e
      | .ok vs => .ok (v :: vs)

/-- `HybridObject::callMethod`: convert each positional argument, invoke the
native method with the converted arguments, and either return
`jsi::Value::undefined()` (void methods) or convert the result back. -/
def callMethod (argTypes : List CppType) (ret : RetType) (impl : List CppValue → CppValue)
    (args : Nat → JSIValue) : Except TypeConversionError JSIValue :=
  match convertArgs argTypes args with
  | .error e => .error e
  | .ok vs =>
    match ret with
    | .rVoid =>
      let _ := impl vs
      .ok JSIValue.undefined
    | .rTyped _ => .ok (toJSI (impl vs))

/-- `HybridObject::createHybridMethod`: wrap a native method pointer in a
`jsi::HostFunctionType`. If the return type is `jsi::Value` the user wants
full JSI control and receives `(runtime, thisVal, args, count)` untouched;
otherwise the call goes through `callMethod` (which ignores `thisVal` and
`count`). -/
def createHybridMethod (m : NativeMethod) : HostFunction :=
  fun runtime thisVal args count =>
    match m with
    | .rawJsi impl => .ok (impl runtime thisVal args count)
    | .typed argTypes ret impl => callMethod argTypes ret impl args

/-- `HybridObject::HybridFunction`: the stored method descriptor. -/
structure HybridFunction where
  function : HostFunction
  parameterCount : Nat

/-- Association-list model of `std::unordered_map` lookup (`find`). -/
def mapFind {κ : Type} {v : Type} [DecidableEq κ] : List (κ × v) → κ → Option v
  | [], _ => none
  | (k', val) :: rest, k => if k' = k then some val else mapFind rest k

/-- `m.count(k) > 0` for an `std::unordered_map` (keys are unique). -/
def mapContains {κ : Type} {v : Type} [DecidableEq κ] (m : List (κ × v)) (k : κ) : Bool :=
  (mapFind m k).isSome

/-- `m[k] = val`: insert-or-assign, as `operator[]` followed by assignment. -/
def mapAssign {κ : Type} {v : Type} [DecidableEq κ] : List (κ × v) → κ → v → List (κ × v)
  | [], k, val => [(k, val)]
  | (k', val') :: rest, k, val =>
    if k' = k then (k, val) :: rest else (k', val') :: mapAssign rest k val

/-- The three member namespaces of a `HybridObject`:
`_methods`, `_getters`, `_setters`. -/
structure HybridObjectState where
  methods : List (String × HybridFunction)
  getters : List (String × HostFunction)
  setters : List (String × HostFunction)

/-- The registry of a freshly constructed `HybridObject`. -/
def emptyHybridObjectState : HybridObjectState := ⟨[], [], []⟩

/-- `NameConflictError`: in the source, a thrown `std::runtime_error` with the
given message. -/
structure NameConflictError where
  message : String
  deriving DecidableEq, Repr

/-- `HybridObject::registerHybridMethod`: unless `ov` (the `override` flag) is
set, fail if the name exists among getters or setters, then fail if it exists
among methods; otherwise assign
`_methods[name] = HybridFunction{createHybridMethod(method), sizeof...(Args)}`. -/
def registerHybridMethod (s : HybridObjectState) (name : String) (m : NativeMethod)
    (ov : Bool) : Except NameConflictError HybridObjectState :=
  if !ov && (mapContains s.getters name || mapContains s.setters name) then
    .error ⟨"Cannot add Hybrid Method \"" ++ name ++ "\" - a property with that name already exists!"⟩
  else if !ov && mapContains s.methods name then
    .error ⟨"Cannot add Hybrid Method \"" ++ name ++ "\" - a method with that name already exists!"⟩
  else
    .ok { s with
          methods := mapAssign s.methods name ⟨createHybridMethod m, m.numParams⟩ }

/-- `HybridObject::registerHybridGetter`: fail if the name exists among
getters, then fail if it exists among methods (the setter namespace is not
consulted); otherwise assign `_getters[name] = createHybridMethod(method)`. -/
def registerHybridGetter (s : HybridObjectState) (name : String) (m : NativeMethod) :
    Except NameConflictError HybridObjectState :=
  if mapContains s.getters name then
    .error ⟨"Cannot add Hybrid Property Getter \"" ++ name ++ "\" - a getter with that name already exists!"⟩
  else if mapContains s.methods name then
    .error ⟨"Cannot add Hybrid Property Getter \"" ++ name ++ "\" - a method with that name already exists!"⟩
  else
    .ok { s with getters := mapAssign s.getters name (createHybridMethod m) }

/-- `HybridObject::registerHybridSetter`: fail if the name exists among
setters, then fail if it exists among methods (the getter namespace is not
consulted); otherwise assign `_setters[name] = createHybridMethod(method)`. -/
def registerHybridSetter (s : HybridObjectState) (name : String) (m : NativeMethod) :
    Except NameConflictError HybridObjectState :=
  if mapContains s.setters name then
    .error ⟨"Cannot add Hybrid Property Setter \"" ++ name ++ "\" - a setter with that name already exists!"⟩
  else if mapContains s.methods name then
    .error ⟨"Cannot add Hybrid Property Setter \"" ++ name ++ "\" - a method with that name already exists!"⟩
  else
    .ok { s with setters := mapAssign s.setters name (createHybridMethod m) }

/-- Did a registration call throw? -/
def regFailed {α : Type} : Except NameConflictError α → Bool
  | .error _ => true
  | .ok _ => false

/-! ## Lazy member declaration (`ensureInitialized` / `loadHybridMethods`) -/

/-- Modelled from the spec: the bodies of `HybridObject::get`, `::set`,
`::getPropertyNames` and `::ensureInitialized` live in `RNFHybridObject.cpp`,
which is not among the sources; only the declarations (`_didLoadMethods`,
`_mutex`, `ensureInitialized`) appear in the header. Spec section 4.2:
declaration is triggered by the first read/write/enumerate, never at
construction; a mutex-protected flag records completion, so concurrent first
accesses are serialized and the hook runs at most once. The mutex serializes
every access, so an execution is a sequence of operations on this state;
`loadCount` instruments how often `loadHybridMethods` has been invoked. -/
structure LifecycleState where
  didLoadMethods : Bool
  loadCount : Nat
  deriving DecidableEq, Repr

/-- The lifecycle state right after the `HybridObject` constructor ran:
`_didLoadMethods = false` and the declaration hook has never been invoked. -/
def initialLifecycle : LifecycleState := ⟨false, 0⟩

/-- Modelled from the spec: `ensureInitialized` checks the mutex-protected
`_didLoadMethods` flag; if unset, it invokes `loadHybridMethods()` and sets
the flag, otherwise it does nothing. -/
def ensureInitialized (s : LifecycleState) : LifecycleState :=
  if s.didLoadMethods then s
  else { didLoadMethods := true, loadCount := s.loadCount + 1 }

/-- One intrinsic operation of the host-object facade: read member, write
member, or enumerate members. -/
inductive FacadeOp where
  | read (name : String)
  | write (name : String) (value : JSIValue)
  | enumerate
  deriving DecidableEq, Repr

/-- Modelled from the spec: each of `get`, `set` and `getPropertyNames`
first calls `ensureInitialized`; the member dispatch that follows does not
touch the lifecycle state. -/
def applyFacadeOp (s : LifecycleState) (_op : FacadeOp) : LifecycleState :=
  ensureInitialized s

/-- Run a (mutex-serialized) sequence of facade operations. -/
def runFacadeOps (s : LifecycleState) (ops : List FacadeOp) : LifecycleState :=
  ops.foldl applyFacadeOp s

/-! ## Per-runtime function cache (`_functionCache`) -/

/-- Modelled from the spec: `_functionCache` is declared in the header as
`unordered_map<jsi::Runtime*, unordered_map<string, shared_ptr<jsi::Function>>>`,
but the code populating it (`HybridObject::get`) lives in
`RNFHybridObject.cpp`, which is not among the sources. Spec section 4.3:
`getOrCreate(runtimeIdentity, name)` returns the cached callable if present,
otherwise builds one, stores it under `(runtime identity, member name)` and
returns it; creation happens at most once per key. Runtime identities are
modelled as `Nat` (opaque pointers), cached callables by distinct creation
ids handed out from the counter `nextId`. -/
structure CacheState where
  cache : List (Nat × List (String × Nat))
  nextId : Nat
  deriving DecidableEq, Repr

/-- The function cache of a freshly constructed `HybridObject`. -/
def emptyCache : CacheState := ⟨[], 0⟩

/-- Two-level lookup: outer key runtime identity, inner key member name. -/
def cacheFind (c : CacheState) (rt : Nat) (name : String) : Option Nat :=
  match mapFind c.cache rt with
  | none => none
  | some inner => mapFind inner name

/-- Modelled from the spec: return the cached callable for
`(runtime identity, member name)` if present, otherwise create a fresh one
(identified by `nextId`), store it under that key and return it. The `Bool`
reports whether a creation happened. -/
def getOrCreate (c : CacheState) (rt : Nat) (name : String) : Nat × Bool × CacheState :=
  match cacheFind c rt name with
  | some id => (id, false, c)
  | none =>
    let inner := (mapFind c.cache rt).getD []
    (c.nextId, true,
      ⟨mapAssign c.cache rt (mapAssign inner name c.nextId), c.nextId + 1⟩)

/-- A run of cache lookups, instrumented with a log of creations and a log of
returned values (most recent first): each entry is
`(runtime identity, member name, callable id)`. -/
structure CacheRun where
  state : CacheState
  created : List (Nat × String × Nat)
  answers : List (Nat × String × Nat)
  deriving DecidableEq, Repr

/-- The run before any lookup: empty cache, empty logs. -/
def initialCacheRun : CacheRun := ⟨emptyCache, [], []⟩

/-- Perform one `getOrCreate` request and log its outcome. -/
def stepCache (r : CacheRun) (q : Nat × String) : CacheRun :=
  match getOrCreate r.state q.1 q.2 with
  | (id, fresh, s') =>
    { state := s'
      created := if fresh then (q.1, q.2, id) :: r.created else r.created
      answers := (q.1, q.2, id) :: r.answers }

/-- Run a (mutex-serialized) sequence of cache requests from the empty cache. -/
def runCache (qs : List (Nat × String)) : CacheRun :=
  qs.foldl stepCache initialCacheRun

/-! ## `FilamentView.cleanupResources` (`FilamentView.tsx`) -/

/-- The fields of the `FilamentView` component that `cleanupResources`
touches, plus instrumentation counters for the external effects it issues:
`choreographer.stop()` calls, `renderCallbackListener.remove()` calls,
`swapChain.release()` calls, and `view.setChoreographer(undefined)` calls.
Option fields model the `undefined`-able TypeScript fields; the payloads are
opaque handles. -/
structure FilamentViewState where
  renderCallbackListener : Option Nat
  isSurfaceAlive : Bool
  swapChain : Option Nat
  view : Option Nat
  choreographerStops : Nat
  listenerRemovals : Nat
  swapChainReleases : Nat
  choreographerUnlinks : Nat
  deriving DecidableEq, Repr

/-- `FilamentView.cleanupResources`: stop the choreographer, remove the
render-callback listener if any (the field itself is not cleared), mark the
surface dead, release the swap chain if any and set the field to `undefined`,
and unlink the view from the choreographer if the view is set. -/
def cleanupResources (s : FilamentViewState) : FilamentViewState :=
  { renderCallbackListener := s.renderCallbackListener
    isSurfaceAlive := false
    swapChain := none
    view := s.view
    choreographerStops := s.choreographerStops + 1
    listenerRemovals :=
      s.listenerRemovals + (if s.renderCallbackListener.isSome then 1 else 0)
    swapChainReleases :=
      s.swapChainReleases + (if s.swapChain.isSome then 1 else 0)
    choreographerUnlinks :=
      s.choreographerUnlinks + (if s.view.isSome then 1 else 0) }

/-! ## Concrete methods used by witnesses and counterexamples -/

/-- The body of a concrete native method `int addOne(int)`. -/
def exAddOneImpl : List CppValue → CppValue :=
  fun vs =>
    match vs with
    | [CppValue.vInt n] => .vInt (n + 1)
    | _ => .vInt 0

/-- A concrete native method `int addOne(int)`: declared parameter types
`[int]`, returning the argument plus one. -/
def exAddOne : NativeMethod :=
  .typed [CppType.tInt] (.rTyped .tInt) exAddOneImpl

/-- The body of a concrete native method `void setAge(int)` (its returned
value is discarded by the void branch of `callMethod`). -/
def exVoidImpl : List CppValue → CppValue := fun _ => .vInt 0

/-- A concrete native method `void setAge(int)`: void return, one declared
`int` parameter. -/
def exVoidSetAge : NativeMethod :=
  .typed [CppType.tInt] .rVoid exVoidImpl

/-- A concrete zero-argument getter `int getAge()` returning 23. -/
def exGetAge : NativeMethod :=
  .typed [] (.rTyped .tInt) (fun _ => .vInt 23)

/-- A concrete raw method with full JSI control: returns its argument count
as a number. -/
def exRawCount : NativeMethod :=
  .rawJsi (fun _rt _this _args count => .number count)

/-- The member name used in concrete examples. -/
def exName : String := "x"

/-- A second, distinct member name used in concrete examples. -/
def exOther : String := "y"

/-- The registry state `registerHybridMethod` produces on success: the method
map gains (or replaces) the descriptor under `name`; getters and setters are
carried over unchanged. -/
def methodInsertResult (s : HybridObjectState) (name : String) (m : NativeMethod) :
    HybridObjectState :=
  { s with methods := mapAssign s.methods name ⟨createHybridMethod m, m.numParams⟩ }

/-- The registry state `registerHybridGetter` produces on success. -/
def getterInsertResult (s : HybridObjectState) (name : String) (m : NativeMethod) :
    HybridObjectState :=
  { s with getters := mapAssign s.getters name (createHybridMethod m) }

/-- The registry state `registerHybridSetter` produces on success. -/
def setterInsertResult (s : HybridObjectState) (name : String) (m : NativeMethod) :
    HybridObjectState :=
  { s with setters := mapAssign s.setters name (createHybridMethod m) }

/-- Extract the success state of a registration, defaulting to the empty
registry (only ever used where the call is proved to succeed). -/
def regState (r : Except NameConflictError HybridObjectState) : HybridObjectState :=
  match r with
  | .ok s => s
  | .error _ => emptyHybridObjectState

/-- The registry after declaring the getter `exName` on a fresh object. -/
def afterGetterState : HybridObjectState :=
  regState (registerHybridGetter emptyHybridObjectState exName exGetAge)

/-- A registry holding only a getter under `exName`. -/
def onlyGetterState : HybridObjectState :=
  { emptyHybridObjectState with getters := [(exName, createHybridMethod exGetAge)] }

/-- The registry after overriding `exName` with a method on `onlyGetterState`. -/
def afterOverrideState : HybridObjectState :=
  regState (registerHybridMethod onlyGetterState exName exAddOne true)

/-- Invariant tying a cache run's logs to its state: an entry is found in the
cache exactly when it was logged as created; created ids are below the
counter; every answered callable was created; a callable id determines its
key; and no key is created twice. -/
def CacheInv (r : CacheRun) : Prop :=
  (∀ rt name id, cacheFind r.state rt name = some id ↔ (rt, name, id) ∈ r.created)
  ∧ (∀ e ∈ r.created, e.2.2 < r.state.nextId)
  ∧ (∀ e ∈ r.answers, e ∈ r.created)
  ∧ (∀ e ∈ r.created, ∀ e' ∈ r.created, e.2.2 = e'.2.2 → e = e')
  ∧ (r.created.map (fun e => (e.1, e.2.1))).Nodup

/-! ## Map lemmas -/

theorem mapFind_mapAssign_self {κ v : Type} [DecidableEq κ] (m : List (κ × v)) (k : κ)
    (val : v) : mapFind (mapAssign m k val) k = some val := by
  induction m with
  | nil => simp [mapAssign, mapFind]
  | cons p rest ih =>
    by_cases h : p.1 = k
    · simp [mapAssign, mapFind, h]
    · simp [mapAssign, mapFind, h, ih]

theorem mapFind_mapAssign_ne {κ v : Type} [DecidableEq κ] (m : List (κ × v)) (k k' : κ)
    (val : v) (h : k' ≠ k) : mapFind (mapAssign m k val) k' = mapFind m k' := by
  have hkk' : ¬k = k' := fun hh => h hh.symm
  induction m with
  | nil => simp [mapAssign, mapFind, hkk']
  | cons p rest ih =>
    obtain ⟨a, b⟩ := p
    by_cases hp : a = k
    · have hak' : ¬a = k' := by rw [hp]; exact hkk'
      simp [mapAssign, mapFind, hp, hkk', hak']
    · simp [mapAssign, mapFind, hp, ih]

theorem mapContains_iff_mapFind {κ v : Type} [DecidableEq κ] (m : List (κ × v)) (k : κ) :
    mapContains m k = true ↔ ∃ val, mapFind m k = some val := by
  simp [mapContains, Option.isSome_iff_exists]

/-! ## Cache lemmas -/

theorem cacheFind_insert_self (c : CacheState) (rt : Nat) (name : String) (idNew k : Nat) :
    cacheFind ⟨mapAssign c.cache rt (mapAssign ((mapFind c.cache rt).getD []) name idNew), k⟩
        rt name = some idNew := by
  simp [cacheFind, mapFind_mapAssign_self]

theorem cacheFind_insert_other_name (c : CacheState) (rt : Nat) (name n' : String)
    (idNew k : Nat) (h : n' ≠ name) :
    cacheFind ⟨mapAssign c.cache rt (mapAssign ((mapFind c.cache rt).getD []) name idNew), k⟩
        rt n' = cacheFind c rt n' := by
  simp only [cacheFind, mapFind_mapAssign_self]
  rw [mapFind_mapAssign_ne _ _ _ _ h]
  cases hrt : mapFind c.cache rt with
  | none => simp [mapFind]
  | some inner => simp

theorem cacheFind_insert_other_rt (c : CacheState) (rt rt' : Nat) (name n' : String)
    (idNew k : Nat) (h : rt' ≠ rt) :
    cacheFind ⟨mapAssign c.cache rt (mapAssign ((mapFind c.cache rt).getD []) name idNew), k⟩
        rt' n' = cacheFind c rt' n' := by
  simp only [cacheFind]
  rw [mapFind_mapAssign_ne _ _ _ _ h]

theorem countP_le_one_of_nodup {α : Type} (l : List α) (p : α → Bool)
    (hp : ∀ a b, p a = true → p b = true → a = b) (hn : l.Nodup) : l.countP p ≤ 1 := by
  induction l with
  | nil => simp
  | cons x xs ih =>
    rw [List.countP_cons]
    rcases List.nodup_cons.mp hn with ⟨hx, hxs⟩
    by_cases hpx : p x = true
    · have hzero : xs.countP p = 0 := by
        rw [List.countP_eq_zero]
        intro a ha hpa
        exact hx ((hp a x hpa hpx) ▸ ha)
      simp [hzero, hpx]
    · simpa [hpx] using ih hxs

theorem cacheInv_initial : CacheInv initialCacheRun := by
  refine ⟨?_, ?_, ?_, ?_, ?_⟩ <;>
    simp [initialCacheRun, emptyCache, cacheFind, mapFind]

theorem cacheInv_step (r : CacheRun) (q : Nat × String) (h : CacheInv r) :
    CacheInv (stepCache r q) := by
  obtain ⟨h1, h2, h3, h4, h5⟩ := h
  obtain ⟨rt, name⟩ := q
  cases hfind : cacheFind r.state rt name with
  | some id =>
    have hstep : stepCache r (rt, name)
        = { state := r.state, created := r.created, answers := (rt, name, id) :: r.answers } := by
      simp [stepCache, getOrCreate, hfind]
    rw [hstep]
    refine ⟨h1, h2, ?_, h4, h5⟩
    intro e he
    rcases List.mem_cons.mp he with he | he
    · subst he
      exact (h1 rt name id).mp hfind
    · exact h3 e he
  | none =>
    have hstep : stepCache r (rt, name)
        = { state := ⟨mapAssign r.state.cache rt
              (mapAssign ((mapFind r.state.cache rt).getD []) name r.state.nextId),
              r.state.nextId + 1⟩,
            created := (rt, name, r.state.nextId) :: r.created,
            answers := (rt, name, r.state.nextId) :: r.answers } := by
      simp [stepCache, getOrCreate, hfind]
    rw [hstep]
    refine ⟨?_, ?_, ?_, ?_, ?_⟩
    · intro rt' n' id'
      by_cases hr : rt' = rt
      · subst hr
        by_cases hn : n' = name
        · subst hn
          rw [cacheFind_insert_self]
          constructor
          · intro he
            have : id' = r.state.nextId := by
              injection he with he'
              exact he'.symm
            subst this
            exact List.mem_cons_self _ _
          · intro hm
            rcases List.mem_cons.mp hm with hm | hm
            · have : id' = r.state.nextId := congrArg (fun e => e.2.2) hm
              rw [this]
            · exact absurd ((h1 rt' n' id').mpr hm) (by rw [hfind]; intro hh; cases hh)
        · rw [cacheFind_insert_other_name _ _ _ _ _ _ hn]
          rw [h1 rt' n' id']
          constructor
          · intro hm
            exact List.mem_cons_of_mem _ hm
          · intro hm
            rcases List.mem_cons.mp hm with hm | hm
            · exact absurd (congrArg (fun e => e.2.1) hm) hn
            · exact hm
      · rw [cacheFind_insert_other_rt _ _ _ _ _ _ _ hr]
        rw [h1 rt' n' id']
        constructor
        · intro hm
          exact List.mem_cons_of_mem _ hm
        · intro hm
          rcases List.mem_cons.mp hm with hm | hm
          · exact absurd (congrArg (fun e => e.1) hm) hr
          · exact hm
    · intro e he
      rcases List.mem_cons.mp he with he | he
      · subst he
        exact Nat.lt_succ_self _
      · exact Nat.lt_succ_of_lt (h2 e he)
    · intro e he
      rcases List.mem_cons.mp he with he | he
      · subst he
        exact List.mem_cons_self _ _
      · exact List.mem_cons_of_mem _ (h3 e he)
    · intro e he e' he' hid
      rcases List.mem_cons.mp he with he | he <;> rcases List.mem_cons.mp he' with he' | he'
      · rw [he, he']
      · subst he
        exact absurd (hid ▸ h2 e' he') (Nat.lt_irrefl _)
      · subst he'
        exact absurd (hid ▸ h2 e he) (Nat.lt_irrefl _)
      · exact h4 e he e' he' hid
    · rw [List.map_cons]
      refine List.Nodup.cons ?_ h5
      intro hmem
      rcases List.mem_map.mp hmem with ⟨e, he, hkey⟩
      obtain ⟨a, b, c⟩ := e
      have ha : a = rt := congrArg Prod.fst hkey
      have hb : b = name := congrArg Prod.snd hkey
      subst ha
      subst hb
      exact absurd ((h1 a b c).mpr he) (by rw [hfind]; intro hh; cases hh)

theorem cacheInv_foldl (qs : List (Nat × String)) (r : CacheRun) (h : CacheInv r) :
    CacheInv (qs.foldl stepCache r) := by
  induction qs generalizing r with
  | nil => exact h
  | cons q qs' ih => exact ih (stepCache r q) (cacheInv_step r q h)

theorem cacheInv_run (qs : List (Nat × String)) : CacheInv (runCache qs) :=
  cacheInv_foldl qs initialCacheRun cacheInv_initial

/-! ## Conversion lemmas -/

theorem convertArgs_ok (ts : List CppType) (args : Nat → JSIValue) (cs : List CppValue)
    (hlen : cs.length = ts.length)
    (hconv : ∀ i t c, ts[i]? = some t → cs[i]? = some c → fromJSI t (args i) = .ok c) :
    convertArgs ts args = .ok cs := by
  induction ts generalizing args cs with
  | nil =>
    cases cs with
    | nil => rfl
    | cons c cs' => simp at hlen
  | cons t ts' ih =>
    cases cs with
    | nil => simp at hlen
    | cons c cs' =>
      have h0 : fromJSI t (args 0) = .ok c := hconv 0 t c (by simp) (by simp)
      have hrest : convertArgs ts' (fun i => args (i + 1)) = .ok cs' := by
        refine ih (fun i => args (i + 1)) cs' (by simpa using hlen) ?_
        intro i t' c' ht hc
        exact hconv (i + 1) t' c' (by simpa using ht) (by simpa using hc)
      simp [convertArgs, h0, hrest]

/-! ## Lifecycle lemmas -/

theorem runFacadeOps_loaded (ops : List FacadeOp) :
    runFacadeOps ⟨true, 1⟩ ops = ⟨true, 1⟩ := by
  induction ops with
  | nil => rfl
  | cons o ops' ih =>
    have hstep : applyFacadeOp ⟨true, 1⟩ o = ⟨true, 1⟩ := rfl
    calc runFacadeOps ⟨true, 1⟩ (o :: ops')
        = runFacadeOps (applyFacadeOp ⟨true, 1⟩ o) ops' := rfl
      _ = ⟨true, 1⟩ := by rw [hstep]; exact ih

/-! ## Claim theorems -/

/-- C1 (amended): a registration fails with `NameConflictError` exactly under
the following conditions — a method registration (without the override flag)
fails iff the name exists in any of the three namespaces; a getter
registration fails iff the name exists among getters or methods; a setter
registration fails iff the name exists among setters or methods. In
particular the failure condition is a function of the registry contents
alone (deterministic and order-independent), and a getter and a setter may
share a name, since neither consults the other's namespace. -/
theorem register_name_conflict_rules (s : HybridObjectState) (name : String)
    (m mG mS : NativeMethod) (ov : Bool) :
    regFailed (registerHybridMethod s name m ov)
        = (!ov && (mapContains s.getters name || mapContains s.setters name
            || mapContains s.methods name))
    ∧ regFailed (registerHybridGetter s name mG)
        = (mapContains s.getters name || mapContains s.methods name)
    ∧ regFailed (registerHybridSetter s name mS)
        = (mapContains s.setters name || mapContains s.methods name) := by
  refine ⟨?_, ?_, ?_⟩
  · cases hg : mapContains s.getters name <;> cases hs : mapContains s.setters name <;>
      cases hm : mapContains s.methods name <;> cases ov <;>
        simp [registerHybridMethod, regFailed, hg, hs, hm]
  · cases hg : mapContains s.getters name <;> cases hm : mapContains s.methods name <;>
      simp [registerHybridGetter, regFailed, hg, hm]
  · cases hs : mapContains s.setters name <;> cases hm : mapContains s.methods name <;>
      simp [registerHybridSetter, regFailed, hs, hm]

/-- C1 (counterexample): declaring a getter named `"x"` and then a setter
named `"x"` on the same object both succeed — the second declaration does
not fail with `NameConflictError` even though the name already exists in the
getter namespace, refuting the claim that a getter and a setter may not
share a name. -/
theorem getter_setter_share_name_ok :
    regFailed (registerHybridGetter emptyHybridObjectState exName exGetAge) = false
    ∧ mapContains afterGetterState.getters exName = true
    ∧ regFailed (registerHybridSetter afterGetterState exName exVoidSetAge) = false := by
  refine ⟨rfl, by decide, by decide⟩

/-- C3: for a registered method whose native return type is not the
passthrough type, the generated callable converts each positional argument
`i` from `args[i]` via `fromJSI` at the declared parameter type, invokes the
native body with the converted arguments in declaration order, converts the
result back via `toJSI`, and returns that converted value. -/
theorem typed_method_converts_args_and_result (ts : List CppType) (t : CppType)
    (impl : List CppValue → CppValue) (rt : Nat) (thisVal : JSIValue)
    (args : Nat → JSIValue) (count : Nat) (cs : List CppValue)
    (hlen : cs.length = ts.length)
    (hconv : ∀ i t' c, ts[i]? = some t' → cs[i]? = some c → fromJSI t' (args i) = .ok c) :
    createHybridMethod (.typed ts (.rTyped t) impl) rt thisVal args count
      = .ok (toJSI (impl cs)) := by
  simp [createHybridMethod, callMethod, convertArgs_ok ts args cs hlen hconv]

/-- C3 (witness): invoking the callable generated for `int addOne(int)` with
the scripting number 5 converts the argument, runs the body, and returns the
converted result. -/
theorem typed_method_converts_witness :
    createHybridMethod (.typed [CppType.tInt] (.rTyped .tInt) exAddOneImpl) 0 .undefined
        (fun _ => .number 5) 1 = .ok (toJSI (exAddOneImpl [CppValue.vInt 5])) :=
  typed_method_converts_args_and_result [CppType.tInt] .tInt exAddOneImpl 0 .undefined
    (fun _ => .number 5) 1 [CppValue.vInt 5] (by decide)
    (fun i t' c ht hc => by
      match i with
      | 0 =>
        simp at ht hc
        subst ht
        subst hc
        rfl
      | i + 1 => simp at ht)

/-- C4 (counterexample): a void-returning method with one declared `int`
parameter, invoked with a string argument, does not return the undefined
sentinel — the argument conversion fails first and a `TypeConversionError`
propagates, so the callable does not return undefined for *every* argument
list. -/
theorem void_method_conversion_failure :
    createHybridMethod exVoidSetAge 0 .undefined (fun _ => .string exOther) 1
      ≠ .ok JSIValue.undefined := by decide

/-- C4 (amended): for a registered method whose native handler returns void,
the generated callable returns the undefined sentinel for every argument
list all of whose positional conversions succeed (otherwise the conversion
error propagates instead). -/
theorem void_method_returns_undefined (ts : List CppType)
    (impl : List CppValue → CppValue) (rt : Nat) (thisVal : JSIValue)
    (args : Nat → JSIValue) (count : Nat) (cs : List CppValue)
    (hlen : cs.length = ts.length)
    (hconv : ∀ i t' c, ts[i]? = some t' → cs[i]? = some c → fromJSI t' (args i) = .ok c) :
    createHybridMethod (.typed ts .rVoid impl) rt thisVal args count
      = .ok JSIValue.undefined := by
  simp [createHybridMethod, callMethod, convertArgs_ok ts args cs hlen hconv]

/-- C4 (witness): the void method `void setAge(int)` invoked with the
scripting number 30 returns the undefined sentinel. -/
theorem void_method_returns_undefined_witness :
    createHybridMethod (.typed [CppType.tInt] .rVoid exVoidImpl) 0 .undefined
        (fun _ => .number 30) 1 = .ok JSIValue.undefined :=
  void_method_returns_undefined [CppType.tInt] exVoidImpl 0 .undefined
    (fun _ => .number 30) 1 [CppValue.vInt 30] (by decide)
    (fun i t' c ht hc => by
      match i with
      | 0 =>
        simp at ht hc
        subst ht
        subst hc
        rfl
      | i + 1 => simp at ht)

/-- C5: for a method whose native return type is the passthrough type
`jsi::Value`, the generated callable passes the runtime, this-value, raw
argument array and argument count to the handler untouched and returns the
handler's result with no conversion in either direction. -/
theorem raw_method_passthrough (impl : Nat → JSIValue → (Nat → JSIValue) → Nat → JSIValue)
    (rt : Nat) (thisVal : JSIValue) (args : Nat → JSIValue) (count : Nat) :
    createHybridMethod (.rawJsi impl) rt thisVal args count
      = .ok (impl rt thisVal args count) := rfl

/-- C6 (amended): with the override flag set, `registerHybridMethod` never
raises `NameConflictError`; the method namespace afterwards maps the name to
the newly generated callable with `parameterCount` equal to the number of
declared parameters, any previous *method* descriptor under that name is
replaced, all other method entries are untouched — but the getter and setter
namespaces are carried over unchanged, so a getter or setter descriptor
under that name from before the call remains in the registry. -/
theorem override_replaces_method_silently (s : HybridObjectState) (name n' : String)
    (m : NativeMethod) (hn : n' ≠ name) :
    registerHybridMethod s name m true = .ok (methodInsertResult s name m)
    ∧ mapFind (methodInsertResult s name m).methods name
        = some ⟨createHybridMethod m, m.numParams⟩
    ∧ mapFind (methodInsertResult s name m).methods n' = mapFind s.methods n'
    ∧ (methodInsertResult s name m).getters = s.getters
    ∧ (methodInsertResult s name m).setters = s.setters := by
  refine ⟨?_, mapFind_mapAssign_self _ _ _, mapFind_mapAssign_ne _ _ _ _ hn, rfl, rfl⟩
  simp [registerHybridMethod, methodInsertResult]

/-- C6 (witness): overriding the name `"x"` (which holds a getter) with a
method succeeds and updates the method namespace as described. -/
theorem override_replaces_method_witness :
    registerHybridMethod onlyGetterState exName exAddOne true
        = .ok (methodInsertResult onlyGetterState exName exAddOne)
    ∧ mapFind (methodInsertResult onlyGetterState exName exAddOne).methods exName
        = some ⟨createHybridMethod exAddOne, exAddOne.numParams⟩
    ∧ mapFind (methodInsertResult onlyGetterState exName exAddOne).methods exOther
        = mapFind onlyGetterState.methods exOther
    ∧ (methodInsertResult onlyGetterState exName exAddOne).getters
        = onlyGetterState.getters
    ∧ (methodInsertResult onlyGetterState exName exAddOne).setters
        = onlyGetterState.setters :=
  override_replaces_method_silently onlyGetterState exName exOther exAddOne (by decide)

/-- C6 (counterexample): on a registry holding a getter named `"x"`,
`registerHybridMethod "x"` with the override flag succeeds, yet the old
getter descriptor under `"x"` is still present in the registry afterwards —
refuting "no descriptor under that name from before the call remains
reachable". -/
theorem override_leaves_getter_reachable :
    regFailed (registerHybridMethod onlyGetterState exName exAddOne true) = false
    ∧ mapContains afterOverrideState.getters exName = true
    ∧ mapContains afterOverrideState.methods exName = true := by
  refine ⟨rfl, by decide, by decide⟩

/-- C8: the host function generated for a typed native method performs no
arity validation — its result does not depend on the caller-supplied
argument count at all; concretely, for `int addOne(int)` invoked with
argument count 0, the conversion of argument slot 0 (never provided by the
caller) is still performed: it fails on an undefined slot and its value
determines the result on a number-carrying slot. -/
theorem host_function_ignores_count (ts : List CppType) (ret : RetType)
    (impl : List CppValue → CppValue) (rt : Nat) (thisVal : JSIValue)
    (args : Nat → JSIValue) (count count' : Nat) :
    createHybridMethod (.typed ts ret impl) rt thisVal args count
        = createHybridMethod (.typed ts ret impl) rt thisVal args count'
    ∧ createHybridMethod (.typed [CppType.tInt] (.rTyped .tInt) exAddOneImpl) 0 .undefined
        (fun _ => JSIValue.undefined) 0 = .error ⟨.tInt, .undefinedK⟩
    ∧ createHybridMethod (.typed [CppType.tInt] (.rTyped .tInt) exAddOneImpl) 0 .undefined
        (fun _ => .number 5) 0 = .ok (.number 6) :=
  ⟨rfl, by decide, by decide⟩

/-- C9: each registration call is atomic with respect to the registry — it
either throws (and, being a pure check-before-write function, leaves the
registry untouched) or produces exactly the state in which the single
targeted namespace map gained the one entry under the registered name (other
names unchanged, the other two namespace maps carried over unchanged). -/
theorem register_ops_atomic (s : HybridObjectState) (name n' : String)
    (m mG mS : NativeMethod) (ov : Bool) (hn : n' ≠ name) :
    (regFailed (registerHybridMethod s name m ov) = true
      ∨ registerHybridMethod s name m ov = .ok (methodInsertResult s name m))
    ∧ (methodInsertResult s name m).getters = s.getters
    ∧ (methodInsertResult s name m).setters = s.setters
    ∧ mapFind (methodInsertResult s name m).methods name
        = some ⟨createHybridMethod m, m.numParams⟩
    ∧ mapFind (methodInsertResult s name m).methods n' = mapFind s.methods n'
    ∧ (regFailed (registerHybridGetter s name mG) = true
      ∨ registerHybridGetter s name mG = .ok (getterInsertResult s name mG))
    ∧ (getterInsertResult s name mG).methods = s.methods
    ∧ (getterInsertResult s name mG).setters = s.setters
    ∧ mapFind (getterInsertResult s name mG).getters name = some (createHybridMethod mG)
    ∧ mapFind (getterInsertResult s name mG).getters n' = mapFind s.getters n'
    ∧ (regFailed (registerHybridSetter s name mS) = true
      ∨ registerHybridSetter s name mS = .ok (setterInsertResult s name mS))
    ∧ (setterInsertResult s name mS).methods = s.methods
    ∧ (setterInsertResult s name mS).getters = s.getters
    ∧ mapFind (setterInsertResult s name mS).setters name = some (createHybridMethod mS)
    ∧ mapFind (setterInsertResult s name mS).setters n' = mapFind s.setters n' := by
  refine ⟨?_, rfl, rfl, mapFind_mapAssign_self _ _ _, mapFind_mapAssign_ne _ _ _ _ hn,
    ?_, rfl, rfl, mapFind_mapAssign_self _ _ _, mapFind_mapAssign_ne _ _ _ _ hn,
    ?_, rfl, rfl, mapFind_mapAssign_self _ _ _, mapFind_mapAssign_ne _ _ _ _ hn⟩
  · by_cases h1 : (!ov && (mapContains s.getters name || mapContains s.setters name)) = true
    · simp [registerHybridMethod, regFailed, h1]
    · by_cases h2 : (!ov && mapContains s.methods name) = true
      · simp [registerHybridMethod, regFailed, h1, h2]
      · simp [registerHybridMethod, methodInsertResult, regFailed, h1, h2]
  · by_cases h1 : mapContains s.getters name = true
    · simp [registerHybridGetter, regFailed, h1]
    · by_cases h2 : mapContains s.methods name = true
      · simp [registerHybridGetter, regFailed, h1, h2]
      · simp [registerHybridGetter, getterInsertResult, regFailed, h1, h2]
  · by_cases h1 : mapContains s.setters name = true
    · simp [registerHybridSetter, regFailed, h1]
    · by_cases h2 : mapContains s.methods name = true
      · simp [registerHybridSetter, regFailed, h1, h2]
      · simp [registerHybridSetter, setterInsertResult, regFailed, h1, h2]

/-- C9 (witness): the atomicity statement instantiated on the empty registry
with concrete methods and the distinct names `"x"` and `"y"`. -/
theorem register_ops_atomic_witness :
    (regFailed (registerHybridMethod emptyHybridObjectState exName exAddOne false) = true
      ∨ registerHybridMethod emptyHybridObjectState exName exAddOne false
          = .ok (methodInsertResult emptyHybridObjectState exName exAddOne))
    ∧ (methodInsertResult emptyHybridObjectState exName exAddOne).getters
        = emptyHybridObjectState.getters
    ∧ (methodInsertResult emptyHybridObjectState exName exAddOne).setters
        = emptyHybridObjectState.setters
    ∧ mapFind (methodInsertResult emptyHybridObjectState exName exAddOne).methods exName
        = some ⟨createHybridMethod exAddOne, exAddOne.numParams⟩
    ∧ mapFind (methodInsertResult emptyHybridObjectState exName exAddOne).methods exOther
        = mapFind emptyHybridObjectState.methods exOther
    ∧ (regFailed (registerHybridGetter emptyHybridObjectState exName exGetAge) = true
      ∨ registerHybridGetter emptyHybridObjectState exName exGetAge
          = .ok (getterInsertResult emptyHybridObjectState exName exGetAge))
    ∧ (getterInsertResult emptyHybridObjectState exName exGetAge).methods
        = emptyHybridObjectState.methods
    ∧ (getterInsertResult emptyHybridObjectState exName exGetAge).setters
        = emptyHybridObjectState.setters
    ∧ mapFind (getterInsertResult emptyHybridObjectState exName exGetAge).getters exName
        = some (createHybridMethod exGetAge)
    ∧ mapFind (getterInsertResult emptyHybridObjectState exName exGetAge).getters exOther
        = mapFind emptyHybridObjectState.getters exOther
    ∧ (regFailed (registerHybridSetter emptyHybridObjectState exName exVoidSetAge) = true
      ∨ registerHybridSetter emptyHybridObjectState exName exVoidSetAge
          = .ok (setterInsertResult emptyHybridObjectState exName exVoidSetAge))
    ∧ (setterInsertResult emptyHybridObjectState exName exVoidSetAge).methods
        = emptyHybridObjectState.methods
    ∧ (setterInsertResult emptyHybridObjectState exName exVoidSetAge).getters
        = emptyHybridObjectState.getters
    ∧ mapFind (setterInsertResult emptyHybridObjectState exName exVoidSetAge).setters exName
        = some (createHybridMethod exVoidSetAge)
    ∧ mapFind (setterInsertResult emptyHybridObjectState exName exVoidSetAge).setters exOther
        = mapFind emptyHybridObjectState.setters exOther :=
  register_ops_atomic emptyHybridObjectState exName exOther exAddOne exGetAge exVoidSetAge
    false (by decide)

/-- C7: over any serialized sequence of cache lookups, a callable created
and stored for a key `(R1, name1)` is returned only for lookups of exactly
that key — in particular for two distinct runtime identities the callable
cached for one is never the value returned for the other — and each key's
entry is created lazily at most once (`k` ranges over
(runtime identity, member name) keys of the creation log). -/
theorem functionCache_keyed_by_runtime (qs : List (Nat × String)) (r1 r2 id : Nat)
    (n1 n2 : String) (k : Nat × String)
    (hc : (r1, n1, id) ∈ (runCache qs).created)
    (ha : (r2, n2, id) ∈ (runCache qs).answers) :
    r1 = r2 ∧ n1 = n2
    ∧ ((runCache qs).created.map (fun e => (e.1, e.2.1))).countP (fun e => decide (e = k)) ≤ 1 := by
  obtain ⟨h1, h2, h3, h4, h5⟩ := cacheInv_run qs
  have hc2 : (r2, n2, id) ∈ (runCache qs).created := h3 _ ha
  have heq : ((r1 : Nat), (n1 : String), (id : Nat)) = (r2, n2, id) :=
    h4 _ hc _ hc2 rfl
  refine ⟨congrArg (fun e => e.1) heq, congrArg (fun e => e.2.1) heq, ?_⟩
  refine countP_le_one_of_nodup _ _ ?_ h5
  intro a b ha hb
  exact (of_decide_eq_true ha).trans (of_decide_eq_true hb).symm

/-- C7 (witness): the keying statement instantiated on the one-request trace
`[(1, "x")]`, whose only creation and only answer are `(1, "x", 0)`. -/
theorem functionCache_keyed_by_runtime_witness :
    (1 : Nat) = 1 ∧ exName = exName
    ∧ (((runCache [(1, exName)]).created.map (fun e => (e.1, e.2.1))).countP
        (fun e => decide (e = (1, exName)))) ≤ 1 :=
  functionCache_keyed_by_runtime [(1, exName)] 1 1 0 exName exName (1, exName)
    (by decide) (by decide)

/-- C2: the member-declaration hook `loadHybridMethods` has run zero times
right after construction, and over any (mutex-serialized) sequence of facade
operations it runs exactly `min n 1` times where `n` is the number of
operations — i.e. never at construction, once on the first
read/write/enumerate, and never again afterwards. -/
theorem loadHybridMethods_runs_at_most_once (ops : List FacadeOp) :
    initialLifecycle.loadCount = 0
    ∧ (runFacadeOps initialLifecycle ops).loadCount = min ops.length 1 := by
  refine ⟨rfl, ?_⟩
  cases ops with
  | nil => rfl
  | cons o ops' =>
    have h1 : applyFacadeOp initialLifecycle o = ⟨true, 1⟩ := rfl
    calc (runFacadeOps initialLifecycle (o :: ops')).loadCount
        = (runFacadeOps ⟨true, 1⟩ ops').loadCount := by
          show (runFacadeOps (applyFacadeOp initialLifecycle o) ops').loadCount = _
          rw [h1]
      _ = 1 := by rw [runFacadeOps_loaded]
      _ = min (o :: ops').length 1 := by simp

/-- C10: `cleanupResources` is idempotent with respect to the swap chain —
the first call clears the stored swap chain (releasing it if present) and
marks the surface not alive; a second consecutive call performs no further
release and leaves the swap chain cleared and the surface flag unchanged. -/
theorem cleanupResources_swapchain_idempotent (s : FilamentViewState) :
    (cleanupResources s).swapChain = none
    ∧ (cleanupResources (cleanupResources s)).swapChain = none
    ∧ (cleanupResources (cleanupResources s)).swapChainReleases
        = (cleanupResources s).swapChainReleases
    ∧ (cleanupResources s).isSurfaceAlive = false
    ∧ (cleanupResources (cleanupResources s)).isSurfaceAlive
        = (cleanupResources s).isSurfaceAlive := by
  simp [cleanupResources]

end Margelo
